import Mathlib

/-
Verification of the Lorenz trajectory integration engine of the
Lorenz-Attractor-Visualization repository.

The numerical state is modelled over the exact rationals; every definition
below is a direct transcription of a Python function from the repository
(src/lorenz_manim/lorenz_scene.py, src/export_video.py, src/lorenz_dash.py,
src/lorenz_turbulence.py).  Python list randomness (numpy.random.uniform in
perturb) is modelled by passing the sampled offsets as explicit arguments.
-/

namespace Lorenz

/-- Phase-space state (x, y, z), as used by all four scripts. -/
@[ext]
structure State where
  x : ℚ
  y : ℚ
  z : ℚ
deriving DecidableEq

/-- Componentwise vector addition, mirroring numpy array addition. -/
instance : Add State :=
  ⟨fun a b => ⟨a.x + b.x, a.y + b.y, a.z + b.z⟩⟩

/-- Scalar times vector, mirroring numpy scalar-array multiplication. -/
instance : HMul ℚ State State :=
  ⟨fun c s => ⟨c * s.x, c * s.y, c * s.z⟩⟩

/-- Parameter record (sigma, rho, beta) of the Lorenz system. -/
structure LorenzParameters where
  sigma : ℚ
  rho : ℚ
  beta : ℚ
deriving DecidableEq

/-- Module constant SIGMA of lorenz_scene.py. -/
def SIGMA : ℚ := 10

/-- Module constant RHO of lorenz_scene.py. -/
def RHO : ℚ := 28

/-- Module constant BETA of lorenz_scene.py. -/
def BETA : ℚ := 8/3

/-- lorenz_derivatives of lorenz_scene.py (module-constant parameters). -/
def lorenz_derivatives (state : State) : State :=
  ⟨SIGMA * (state.y - state.x),
   state.x * (RHO - state.z) - state.y,
   state.x * state.y - BETA * state.z⟩

/-- rk4_step of lorenz_scene.py: single RK4 integration step. -/
def rk4_step (state : State) (dt : ℚ) : State :=
  let k1 := lorenz_derivatives state
  let k2 := lorenz_derivatives (state + 0.5*dt*k1)
  let k3 := lorenz_derivatives (state + 0.5*dt*k2)
  let k4 := lorenz_derivatives (state + dt*k3)
  state + (dt/6) * (k1 + (2:ℚ)*k2 + (2:ℚ)*k3 + k4)

/-- Loop body of generate_trajectory in lorenz_scene.py: the list of the
states appended by running the given number of rk4_step iterations from
the given state (the initial state itself is not included). -/
def genAux (state : State) (dt : ℚ) : ℕ → List State
  | 0 => []
  | n+1 => rk4_step state dt :: genAux (rk4_step state dt) dt n

/-- generate_trajectory of lorenz_scene.py: initial state followed by the
states produced by the requested number of RK4 steps. -/
def generate_trajectory (initial : State) (dt : ℚ) (steps : ℕ) : List State :=
  initial :: genAux initial dt steps

/-- generate_trajectory of lorenz_scene.py with a Python integer step
count: the for-loop `for _ in range(steps)` performs no iteration when
steps is negative, so a negative count behaves as zero. -/
def generate_trajectoryZ (initial : State) (dt : ℚ) (steps : ℤ) : List State :=
  generate_trajectory initial dt steps.toNat

/-- Iterated rk4_step: the state after n RK4 steps from the given state. -/
def rk4N (state : State) (dt : ℚ) : ℕ → State
  | 0 => state
  | n+1 => rk4N (rk4_step state dt) dt n

/-- generate_trajectory of export_video.py.  It allocates arrays of length
steps, seeds index 0 with the fixed initial condition (0.1, 0, 0) and runs
the RK4 update for i in range(steps - 1), so it returns exactly steps
states.  For steps = 0 the seeding line raises IndexError and for negative
steps numpy.empty raises ValueError, modelled as none. -/
def export_generate (dt : ℚ) (steps : ℤ) : Option (List State) :=
  if steps ≤ 0 then none
  else some (State.mk 0.1 0 0 :: genAux (State.mk 0.1 0 0) dt (steps.toNat - 1))

/-- Derivative function written exactly as the specification states it:
f(s) = (sigma*(y - x), x*(rho - z) - y, x*y - beta*z). -/
def f_spec (p : LorenzParameters) (s : State) : State :=
  ⟨p.sigma * (s.y - s.x), s.x * (p.rho - s.z) - s.y, s.x * s.y - p.beta * s.z⟩

/-- RK4 rule written exactly as the specification states it:
k1 = f(s), k2 = f(s + dt/2 k1), k3 = f(s + dt/2 k2), k4 = f(s + dt k3),
next = s + dt/6 (k1 + 2 k2 + 2 k3 + k4). -/
def rk4_spec (p : LorenzParameters) (s : State) (dt : ℚ) : State :=
  let k1 := f_spec p s
  let k2 := f_spec p (s + (dt/2) * k1)
  let k3 := f_spec p (s + (dt/2) * k2)
  let k4 := f_spec p (s + dt * k3)
  s + (dt/6) * (k1 + (2:ℚ)*k2 + (2:ℚ)*k3 + k4)

/-- History bound max_points of LorenzSimulator.step in lorenz_dash.py. -/
def max_points : ℕ := 10000

/-- LorenzSimulator of lorenz_dash.py: parameters, step size, and the four
retained history lists (most recent element last, as in a Python list). -/
structure LorenzSimulator where
  sigma : ℚ
  rho : ℚ
  beta : ℚ
  dt : ℚ
  x : List ℚ
  y : List ℚ
  z : List ℚ
  t : List ℚ
deriving DecidableEq

/-- LorenzSimulator.reset: history becomes the single entry (x0, y0, z0)
at time 0. -/
def LorenzSimulator.reset (sim : LorenzSimulator) (x0 y0 z0 : ℚ) : LorenzSimulator :=
  { sim with x := [x0], y := [y0], z := [z0], t := [0] }

/-- LorenzSimulator constructor: stores the parameters and dt, then calls
reset with the initial coordinates. -/
def LorenzSimulator.create (x0 y0 z0 sigma rho beta dt : ℚ) : LorenzSimulator :=
  LorenzSimulator.reset ⟨sigma, rho, beta, dt, [], [], [], []⟩ x0 y0 z0

/-- LorenzSimulator._derivatives of lorenz_dash.py. -/
def LorenzSimulator.derivatives (sim : LorenzSimulator) (x y z : ℚ) : ℚ × ℚ × ℚ :=
  (sim.sigma * (y - x), x * (sim.rho - z) - y, x * y - sim.beta * z)

/-- LorenzSimulator.perturb of lorenz_dash.py, with the three sampled
uniform offsets passed explicitly: if the history is empty it returns
unchanged, otherwise it resets to the last state plus the offsets. -/
def LorenzSimulator.perturb (sim : LorenzSimulator) (dx dy dz : ℚ) : LorenzSimulator :=
  if sim.x = [] then sim
  else sim.reset (sim.x.getLastD 0 + dx) (sim.y.getLastD 0 + dy) (sim.z.getLastD 0 + dz)

/-- Body of one iteration of the for-loop in LorenzSimulator.step of
lorenz_dash.py: the componentwise RK4 update of the current coordinates. -/
def LorenzSimulator.rk4Sub (sim : LorenzSimulator) (cx cy cz : ℚ) : ℚ × ℚ × ℚ :=
  let k1 := sim.derivatives cx cy cz
  let k2 := sim.derivatives (cx + 0.5*sim.dt*k1.1) (cy + 0.5*sim.dt*k1.2.1)
      (cz + 0.5*sim.dt*k1.2.2)
  let k3 := sim.derivatives (cx + 0.5*sim.dt*k2.1) (cy + 0.5*sim.dt*k2.2.1)
      (cz + 0.5*sim.dt*k2.2.2)
  let k4 := sim.derivatives (cx + sim.dt*k3.1) (cy + sim.dt*k3.2.1)
      (cz + sim.dt*k3.2.2)
  (cx + (sim.dt / 6) * (k1.1 + 2*k2.1 + 2*k3.1 + k4.1),
   cy + (sim.dt / 6) * (k1.2.1 + 2*k2.2.1 + 2*k3.2.1 + k4.2.1),
   cz + (sim.dt / 6) * (k1.2.2 + 2*k2.2.2 + 2*k3.2.2 + k4.2.2))

/-- The for-loop of LorenzSimulator.step: runs the given number of RK4
sub-steps from the current coordinates and time, appending each new
sample to the four history lists. -/
def LorenzSimulator.stepLoop (sim : LorenzSimulator) (cx cy cz ct : ℚ) :
    ℕ → LorenzSimulator
  | 0 => sim
  | n+1 =>
    let c := sim.rk4Sub cx cy cz
    let nt := ct + sim.dt
    LorenzSimulator.stepLoop
      { sim with x := sim.x ++ [c.1], y := sim.y ++ [c.2.1],
                 z := sim.z ++ [c.2.2], t := sim.t ++ [nt] }
      c.1 c.2.1 c.2.2 nt n

/-- LorenzSimulator.step of lorenz_dash.py: reads the current sample from
the ends of the history lists (Python indexing [-1], which raises on an
empty list; modelled with getLastD, the discrepancy arising only on the
unreachable empty history), runs the sub-step loop, then truncates each
list to its most recent max_points entries when the x list has grown past
max_points. -/
def LorenzSimulator.step (sim : LorenzSimulator) (steps : ℕ) : LorenzSimulator :=
  let s := sim.stepLoop (sim.x.getLastD 0) (sim.y.getLastD 0) (sim.z.getLastD 0)
      (sim.t.getLastD 0) steps
  if s.x.length > max_points then
    { s with x := s.x.drop (s.x.length - max_points),
             y := s.y.drop (s.y.length - max_points),
             z := s.z.drop (s.z.length - max_points),
             t := s.t.drop (s.t.length - max_points) }
  else s

/-- LorenzSimulator.step with a Python integer count: `for _ in
range(steps)` performs no iteration when steps is negative. -/
def LorenzSimulator.stepZ (sim : LorenzSimulator) (steps : ℤ) : LorenzSimulator :=
  sim.step steps.toNat

/-- A sequence of advance calls on a simulator handle. -/
def LorenzSimulator.advanceAll (sim : LorenzSimulator) (ks : List ℕ) : LorenzSimulator :=
  ks.foldl (fun s k => s.step k) sim

/-- Simulator handles reachable by the public operations of
lorenz_dash.py: construction followed by any sequence of reset, perturb
and step calls. -/
inductive Reachable : LorenzSimulator → Prop where
  | created (x0 y0 z0 sigma rho beta dt : ℚ) :
      Reachable (LorenzSimulator.create x0 y0 z0 sigma rho beta dt)
  | did_reset (sim : LorenzSimulator) (x0 y0 z0 : ℚ) :
      Reachable sim → Reachable (sim.reset x0 y0 z0)
  | did_perturb (sim : LorenzSimulator) (dx dy dz : ℚ) :
      Reachable sim → Reachable (sim.perturb dx dy dz)
  | did_step (sim : LorenzSimulator) (k : ℕ) :
      Reachable sim → Reachable (sim.step k)

/-- lorenz_system of lorenz_turbulence.py (default parameters 10, 28, 8/3
are the only ones used). -/
def lorenz_system (x y z sigma rho beta : ℚ) : ℚ × ℚ × ℚ :=
  (sigma * (y - x), x * (rho - z) - y, x * y - beta * z)

/-- Body of one iteration of the for-loop in simulate_lorenz of
lorenz_turbulence.py: a single explicit Euler update. -/
def eulerStep (s : State) (dt : ℚ) : State :=
  let d := lorenz_system s.x s.y s.z 10 28 (8/3)
  ⟨s.x + d.1 * dt, s.y + d.2.1 * dt, s.z + d.2.2 * dt⟩

/-- Euler iteration list: the states appended by num_steps Euler updates. -/
def eulerAux (s : State) (dt : ℚ) : ℕ → List State
  | 0 => []
  | n+1 => eulerStep s dt :: eulerAux (eulerStep s dt) dt n

/-- simulate_lorenz of lorenz_turbulence.py: arrays of length
num_steps + 1 seeded with (0.0, 1.0, 1.05) and filled by Euler updates. -/
def simulate_lorenz (dt : ℚ) (num_steps : ℕ) : List State :=
  State.mk 0.0 1.0 1.05 :: eulerAux (State.mk 0.0 1.0 1.05) dt num_steps

/-- Time stamps appended by the sub-step loop: ct + dt, ct + 2 dt, ... -/
def timeAux (ct dt : ℚ) : ℕ → List ℚ
  | 0 => []
  | n+1 => (ct + dt) :: timeAux (ct + dt) dt n

/-- Invariant relating a dashboard simulator with standard parameters to
the batch trajectory: after n total sub-steps from initial state s0 the
retained lists are the most recent max_points entries (all entries while
within the bound) of the batch trajectory of n steps. -/
def StdHist (s0 : State) (n : ℕ) (sim : LorenzSimulator) : Prop :=
  sim.sigma = SIGMA ∧ sim.rho = RHO ∧ sim.beta = BETA ∧
  sim.x = ((generate_trajectory s0 sim.dt n).map State.x).drop (n + 1 - max_points) ∧
  sim.y = ((generate_trajectory s0 sim.dt n).map State.y).drop (n + 1 - max_points) ∧
  sim.z = ((generate_trajectory s0 sim.dt n).map State.z).drop (n + 1 - max_points)

/-
Theorems.
-/

@[simp]
theorem State.add_def (a b : State) :
    a + b = State.mk (a.x + b.x) (a.y + b.y) (a.z + b.z) := rfl

@[simp]
theorem State.hmul_def (c : ℚ) (s : State) :
    c * s = State.mk (c * s.x) (c * s.y) (c * s.z) := rfl

theorem genAux_length (dt : ℚ) : ∀ (n : ℕ) (s : State), (genAux s dt n).length = n
  | 0, _ => rfl
  | n+1, s => by simp [genAux, genAux_length dt n]

theorem generate_trajectory_length (s : State) (dt : ℚ) (n : ℕ) :
    (generate_trajectory s dt n).length = n + 1 := by
  simp [generate_trajectory, genAux_length]

theorem eulerAux_length (dt : ℚ) : ∀ (n : ℕ) (s : State), (eulerAux s dt n).length = n
  | 0, _ => rfl
  | n+1, s => by simp [eulerAux, eulerAux_length dt n]

theorem eulerAux_getD (dt : ℚ) :
    ∀ (n : ℕ) (s : State) (i : ℕ), i + 1 < (s :: eulerAux s dt n).length →
      (s :: eulerAux s dt n).getD (i+1) (State.mk 0 0 0) =
        eulerStep ((s :: eulerAux s dt n).getD i (State.mk 0 0 0)) dt := by
  intro n
  induction n with
  | zero => intro s i h; simp [eulerAux] at h
  | succ m ih =>
    intro s i h
    cases i with
    | zero => simp [eulerAux]
    | succ j =>
      have h2 : j + 1 < (eulerStep s dt :: eulerAux (eulerStep s dt) dt m).length := by
        simp [eulerAux_length] at h ⊢
        omega
      have := ih (eulerStep s dt) j h2
      simpa [eulerAux] using this

theorem getLast?_drop {α : Type} :
    ∀ (l : List α) (m : ℕ), m < l.length → (l.drop m).getLast? = l.getLast? := by
  intro l
  induction l with
  | nil => intro m h; simp at h
  | cons a l ih =>
    intro m h
    cases m with
    | zero => rfl
    | succ j =>
      have hj : j < l.length := by simpa using h
      rw [List.drop_succ_cons, ih j hj]
      cases l with
      | nil => simp at hj
      | cons b l2 => rw [List.getLast?_cons_cons]

theorem generate_getLast? (dt : ℚ) :
    ∀ (n : ℕ) (s : State),
      (generate_trajectory s dt n).getLast? = some (rk4N s dt n) := by
  intro n
  induction n with
  | zero => intro s; rfl
  | succ m ih =>
    intro s
    show (s :: genAux s dt (m+1)).getLast? = _
    rw [genAux, List.getLast?_cons_cons]
    exact ih (rk4_step s dt)

theorem genAux_add (dt : ℚ) :
    ∀ (m n : ℕ) (s : State),
      genAux s dt (m + n) = genAux s dt m ++ genAux (rk4N s dt m) dt n := by
  intro m
  induction m with
  | zero => intro n s; simp [genAux, rk4N]
  | succ j ih =>
    intro n s
    rw [Nat.succ_add, genAux, genAux, ih n (rk4_step s dt), List.cons_append]
    rfl

theorem generate_add (s : State) (dt : ℚ) (m n : ℕ) :
    generate_trajectory s dt (m + n) =
      generate_trajectory s dt m ++ genAux (rk4N s dt m) dt n := by
  simp [generate_trajectory, genAux_add, List.cons_append]

theorem hist_getLastD (s0 : State) (dt : ℚ) (n : ℕ) (f : State → ℚ) (d : ℚ) :
    ((((generate_trajectory s0 dt n).map f).drop (n + 1 - max_points)).getLastD d) =
      f (rk4N s0 dt n) := by
  have hlen : n + 1 - max_points < ((generate_trajectory s0 dt n).map f).length := by
    rw [List.length_map, generate_trajectory_length]
    have hM : 0 < max_points := by norm_num [max_points]
    omega
  rw [List.getLastD_eq_getLast?, getLast?_drop _ _ hlen, List.getLast?_map,
    generate_getLast?]
  rfl

theorem stepLoop_params :
    ∀ (n : ℕ) (sim : LorenzSimulator) (cx cy cz ct : ℚ),
      (sim.stepLoop cx cy cz ct n).sigma = sim.sigma ∧
      (sim.stepLoop cx cy cz ct n).rho = sim.rho ∧
      (sim.stepLoop cx cy cz ct n).beta = sim.beta ∧
      (sim.stepLoop cx cy cz ct n).dt = sim.dt
  | 0, sim, _, _, _, _ => ⟨rfl, rfl, rfl, rfl⟩
  | n+1, sim, cx, cy, cz, ct => by
    rw [LorenzSimulator.stepLoop]
    exact stepLoop_params n _ _ _ _ _

theorem step_params (sim : LorenzSimulator) (k : ℕ) :
    (sim.step k).sigma = sim.sigma ∧ (sim.step k).rho = sim.rho ∧
    (sim.step k).beta = sim.beta ∧ (sim.step k).dt = sim.dt := by
  have h := stepLoop_params k sim (sim.x.getLastD 0) (sim.y.getLastD 0)
    (sim.z.getLastD 0) (sim.t.getLastD 0)
  simp only [LorenzSimulator.step]
  split
  · exact h
  · exact h

theorem stepLoop_lengths :
    ∀ (n : ℕ) (sim : LorenzSimulator) (cx cy cz ct : ℚ),
      (sim.stepLoop cx cy cz ct n).x.length = sim.x.length + n ∧
      (sim.stepLoop cx cy cz ct n).y.length = sim.y.length + n ∧
      (sim.stepLoop cx cy cz ct n).z.length = sim.z.length + n ∧
      (sim.stepLoop cx cy cz ct n).t.length = sim.t.length + n
  | 0, sim, _, _, _, _ => ⟨rfl, rfl, rfl, rfl⟩
  | n+1, sim, cx, cy, cz, ct => by
    rw [LorenzSimulator.stepLoop]
    have h := stepLoop_lengths n
      { sim with x := sim.x ++ [(sim.rk4Sub cx cy cz).1],
                 y := sim.y ++ [(sim.rk4Sub cx cy cz).2.1],
                 z := sim.z ++ [(sim.rk4Sub cx cy cz).2.2],
                 t := sim.t ++ [ct + sim.dt] }
      (sim.rk4Sub cx cy cz).1 (sim.rk4Sub cx cy cz).2.1 (sim.rk4Sub cx cy cz).2.2
      (ct + sim.dt)
    simp only [List.length_append, List.length_cons, List.length_nil] at h
    obtain ⟨h1, h2, h3, h4⟩ := h
    refine ⟨?_, ?_, ?_, ?_⟩ <;> (first | rw [h1] | rw [h2] | rw [h3] | rw [h4]) <;> omega

theorem rk4Sub_std (sim : LorenzSimulator) (hσ : sim.sigma = SIGMA)
    (hρ : sim.rho = RHO) (hβ : sim.beta = BETA) (cx cy cz : ℚ) :
    sim.rk4Sub cx cy cz =
      ((rk4_step (State.mk cx cy cz) sim.dt).x,
       (rk4_step (State.mk cx cy cz) sim.dt).y,
       (rk4_step (State.mk cx cy cz) sim.dt).z) := by
  simp only [LorenzSimulator.rk4Sub, LorenzSimulator.derivatives, rk4_step,
    lorenz_derivatives, hσ, hρ, hβ, SIGMA, RHO, BETA, State.add_def, State.hmul_def]

theorem stepLoop_eq :
    ∀ (n : ℕ) (sim : LorenzSimulator), sim.sigma = SIGMA → sim.rho = RHO →
      sim.beta = BETA → ∀ (cx cy cz ct : ℚ),
      sim.stepLoop cx cy cz ct n =
        { sim with
          x := sim.x ++ (genAux (State.mk cx cy cz) sim.dt n).map State.x,
          y := sim.y ++ (genAux (State.mk cx cy cz) sim.dt n).map State.y,
          z := sim.z ++ (genAux (State.mk cx cy cz) sim.dt n).map State.z,
          t := sim.t ++ timeAux ct sim.dt n } := by
  intro n
  induction n with
  | zero =>
    intro sim hσ hρ hβ cx cy cz ct
    simp [LorenzSimulator.stepLoop, genAux, timeAux]
  | succ m ih =>
    intro sim hσ hρ hβ cx cy cz ct
    have hsub := rk4Sub_std sim hσ hρ hβ cx cy cz
    rw [LorenzSimulator.stepLoop]
    simp only [hsub]
    rw [ih { sim with
        x := sim.x ++ [(rk4_step (State.mk cx cy cz) sim.dt).x],
        y := sim.y ++ [(rk4_step (State.mk cx cy cz) sim.dt).y],
        z := sim.z ++ [(rk4_step (State.mk cx cy cz) sim.dt).z],
        t := sim.t ++ [ct + sim.dt] } hσ hρ hβ]
    have heta : State.mk (rk4_step (State.mk cx cy cz) sim.dt).x
        (rk4_step (State.mk cx cy cz) sim.dt).y
        (rk4_step (State.mk cx cy cz) sim.dt).z = rk4_step (State.mk cx cy cz) sim.dt := rfl
    rw [heta]
    simp [genAux, timeAux, List.append_assoc]


theorem key_drop_append (s0 : State) (dt : ℚ) (n k : ℕ) (f : State → ℚ) :
    ((generate_trajectory s0 dt n).map f).drop (n + 1 - max_points) ++
      (genAux (rk4N s0 dt n) dt k).map f =
    ((generate_trajectory s0 dt (n + k)).map f).drop (n + 1 - max_points) := by
  have hle : n + 1 - max_points ≤ ((generate_trajectory s0 dt n).map f).length := by
    rw [List.length_map, generate_trajectory_length]
    omega
  rw [generate_add s0 dt n k, List.map_append, List.drop_append_of_le_length hle]

theorem step_hist (sim : LorenzSimulator) (s0 : State) (n : ℕ)
    (h : StdHist s0 n sim) (k : ℕ) : StdHist s0 (n + k) (sim.step k) := by
  obtain ⟨hσ, hρ, hβ, hx, hy, hz⟩ := h
  have hM : 0 < max_points := by norm_num [max_points]
  have hcx : sim.x.getLastD 0 = State.x (rk4N s0 sim.dt n) := by
    rw [hx, hist_getLastD]
  have hcy : sim.y.getLastD 0 = State.y (rk4N s0 sim.dt n) := by
    rw [hy, hist_getLastD]
  have hcz : sim.z.getLastD 0 = State.z (rk4N s0 sim.dt n) := by
    rw [hz, hist_getLastD]
  have hmk : State.mk (sim.x.getLastD 0) (sim.y.getLastD 0) (sim.z.getLastD 0) =
      rk4N s0 sim.dt n := by
    rw [hcx, hcy, hcz]
  have hloop := stepLoop_eq k sim hσ hρ hβ (sim.x.getLastD 0) (sim.y.getLastD 0)
    (sim.z.getLastD 0) (sim.t.getLastD 0)
  rw [hmk] at hloop
  have hsx : sim.x ++ (genAux (rk4N s0 sim.dt n) sim.dt k).map State.x =
      ((generate_trajectory s0 sim.dt (n + k)).map State.x).drop (n + 1 - max_points) := by
    rw [hx]
    exact key_drop_append s0 sim.dt n k State.x
  have hsy : sim.y ++ (genAux (rk4N s0 sim.dt n) sim.dt k).map State.y =
      ((generate_trajectory s0 sim.dt (n + k)).map State.y).drop (n + 1 - max_points) := by
    rw [hy]
    exact key_drop_append s0 sim.dt n k State.y
  have hsz : sim.z ++ (genAux (rk4N s0 sim.dt n) sim.dt k).map State.z =
      ((generate_trajectory s0 sim.dt (n + k)).map State.z).drop (n + 1 - max_points) := by
    rw [hz]
    exact key_drop_append s0 sim.dt n k State.z
  have hdt := (step_params sim k).2.2.2
  have hxx : (sim.step k).x =
      ((generate_trajectory s0 sim.dt (n + k)).map State.x).drop (n + k + 1 - max_points) := by
    simp only [LorenzSimulator.step]
    rw [hloop]
    dsimp only
    split
    · rename_i hbig
      rw [hsx, List.length_drop, List.length_map, generate_trajectory_length] at hbig
      dsimp only
      rw [hsx, List.length_drop, List.length_map, generate_trajectory_length,
        List.drop_drop]
      have hidx : n + 1 - max_points + (n + k + 1 - (n + 1 - max_points) - max_points) =
          n + k + 1 - max_points := by omega
      rw [hidx]
    · rename_i hbig
      rw [hsx, List.length_drop, List.length_map, generate_trajectory_length] at hbig
      dsimp only
      rw [hsx]
      have hidx : n + 1 - max_points = n + k + 1 - max_points := by omega
      rw [hidx]
  have hyy : (sim.step k).y =
      ((generate_trajectory s0 sim.dt (n + k)).map State.y).drop (n + k + 1 - max_points) := by
    simp only [LorenzSimulator.step]
    rw [hloop]
    dsimp only
    split
    · rename_i hbig
      rw [hsx, List.length_drop, List.length_map, generate_trajectory_length] at hbig
      dsimp only
      rw [hsy, List.length_drop, List.length_map, generate_trajectory_length,
        List.drop_drop]
      have hidx : n + 1 - max_points + (n + k + 1 - (n + 1 - max_points) - max_points) =
          n + k + 1 - max_points := by omega
      rw [hidx]
    · rename_i hbig
      rw [hsx, List.length_drop, List.length_map, generate_trajectory_length] at hbig
      dsimp only
      rw [hsy]
      have hidx : n + 1 - max_points = n + k + 1 - max_points := by omega
      rw [hidx]
  have hzz : (sim.step k).z =
      ((generate_trajectory s0 sim.dt (n + k)).map State.z).drop (n + k + 1 - max_points) := by
    simp only [LorenzSimulator.step]
    rw [hloop]
    dsimp only
    split
    · rename_i hbig
      rw [hsx, List.length_drop, List.length_map, generate_trajectory_length] at hbig
      dsimp only
      rw [hsz, List.length_drop, List.length_map, generate_trajectory_length,
        List.drop_drop]
      have hidx : n + 1 - max_points + (n + k + 1 - (n + 1 - max_points) - max_points) =
          n + k + 1 - max_points := by omega
      rw [hidx]
    · rename_i hbig
      rw [hsx, List.length_drop, List.length_map, generate_trajectory_length] at hbig
      dsimp only
      rw [hsz]
      have hidx : n + 1 - max_points = n + k + 1 - max_points := by omega
      rw [hidx]
  refine ⟨(step_params sim k).1.trans hσ, (step_params sim k).2.1.trans hρ,
    (step_params sim k).2.2.1.trans hβ, ?_, ?_, ?_⟩ <;> rw [hdt]
  · exact hxx
  · exact hyy
  · exact hzz

theorem reset_hist (sim : LorenzSimulator) (hσ : sim.sigma = SIGMA)
    (hρ : sim.rho = RHO) (hβ : sim.beta = BETA) (x0 y0 z0 : ℚ) :
    StdHist (State.mk x0 y0 z0) 0 (sim.reset x0 y0 z0) := by
  refine ⟨hσ, hρ, hβ, ?_, ?_, ?_⟩ <;>
    simp [LorenzSimulator.reset, generate_trajectory, genAux, max_points]

theorem advanceAll_params :
    ∀ (ks : List ℕ) (sim : LorenzSimulator),
      (sim.advanceAll ks).sigma = sim.sigma ∧ (sim.advanceAll ks).rho = sim.rho ∧
      (sim.advanceAll ks).beta = sim.beta ∧ (sim.advanceAll ks).dt = sim.dt := by
  intro ks
  induction ks with
  | nil => intro sim; exact ⟨rfl, rfl, rfl, rfl⟩
  | cons k ks ih =>
    intro sim
    have h1 := step_params sim k
    have h2 := ih (sim.step k)
    simp only [LorenzSimulator.advanceAll, List.foldl_cons] at h2 ⊢
    exact ⟨h2.1.trans h1.1, h2.2.1.trans h1.2.1, h2.2.2.1.trans h1.2.2.1,
      h2.2.2.2.trans h1.2.2.2⟩

theorem advanceAll_hist :
    ∀ (ks : List ℕ) (sim : LorenzSimulator) (s0 : State) (n : ℕ),
      StdHist s0 n sim → StdHist s0 (n + ks.sum) (sim.advanceAll ks) := by
  intro ks
  induction ks with
  | nil =>
    intro sim s0 n h
    simpa [LorenzSimulator.advanceAll] using h
  | cons k ks ih =>
    intro sim s0 n h
    have h2 := ih (sim.step k) s0 (n + k) (step_hist sim s0 n h k)
    simpa [LorenzSimulator.advanceAll, List.sum_cons, Nat.add_assoc] using h2

/-- C3: with the standard parameters, a simulator handle reset to s0 and
advanced by n sub-steps in a single step call, with n + 1 within the
history bound, retains exactly the state sequence of the batch trajectory
generate(s0, dt, n). -/
theorem C3_incremental_matches_batch (u v w x0 y0 z0 dtv : ℚ) (n : ℕ)
    (hn : 0 < n) (hb : n + 1 ≤ max_points) :
    (((LorenzSimulator.create u v w 10 28 (8/3) dtv).reset x0 y0 z0).step n).x =
      (generate_trajectory (State.mk x0 y0 z0) dtv n).map State.x ∧
    (((LorenzSimulator.create u v w 10 28 (8/3) dtv).reset x0 y0 z0).step n).y =
      (generate_trajectory (State.mk x0 y0 z0) dtv n).map State.y ∧
    (((LorenzSimulator.create u v w 10 28 (8/3) dtv).reset x0 y0 z0).step n).z =
      (generate_trajectory (State.mk x0 y0 z0) dtv n).map State.z := by
  have h0 := reset_hist (LorenzSimulator.create u v w 10 28 (8/3) dtv) rfl rfl rfl x0 y0 z0
  have h1 := step_hist _ _ 0 h0 n
  obtain ⟨_, _, _, hx, hy, hz⟩ := h1
  have hdt : (((LorenzSimulator.create u v w 10 28 (8/3) dtv).reset x0 y0 z0).step n).dt
      = dtv := by
    rw [(step_params _ n).2.2.2]
    rfl
  rw [hdt, Nat.zero_add] at hx hy hz
  have hz0 : n + 1 - max_points = 0 := by omega
  rw [hz0, List.drop_zero] at hx hy hz
  exact ⟨hx, hy, hz⟩

/-- C3 witness at a concrete configuration. -/
theorem C3_incremental_matches_batch_witness :
    (((LorenzSimulator.create 0 0 0 10 28 (8/3) (1/100)).reset (1/10) 0 0).step 2).x =
      (generate_trajectory (State.mk (1/10) 0 0) (1/100) 2).map State.x ∧
    (((LorenzSimulator.create 0 0 0 10 28 (8/3) (1/100)).reset (1/10) 0 0).step 2).y =
      (generate_trajectory (State.mk (1/10) 0 0) (1/100) 2).map State.y ∧
    (((LorenzSimulator.create 0 0 0 10 28 (8/3) (1/100)).reset (1/10) 0 0).step 2).z =
      (generate_trajectory (State.mk (1/10) 0 0) (1/100) 2).map State.z :=
  C3_incremental_matches_batch 0 0 0 (1/10) 0 0 (1/100) 2 (by decide) (by decide)

/-- C5: after a sequence of advance calls totalling more than max_points
sub-steps since reset, the retained lists have length exactly max_points,
hold precisely the most recent max_points states of the full batch
trajectory, and their last entries are the true current state. -/
theorem C5_bounded_history (u v w x0 y0 z0 dtv : ℚ) (ks : List ℕ)
    (h : max_points < ks.sum) :
    ((((LorenzSimulator.create u v w 10 28 (8/3) dtv).reset x0 y0 z0).advanceAll
        ks).x.length = max_points) ∧
    (((LorenzSimulator.create u v w 10 28 (8/3) dtv).reset x0 y0 z0).advanceAll ks).x =
      ((generate_trajectory (State.mk x0 y0 z0) dtv ks.sum).map State.x).drop
        (ks.sum + 1 - max_points) ∧
    (((LorenzSimulator.create u v w 10 28 (8/3) dtv).reset x0 y0 z0).advanceAll ks).y =
      ((generate_trajectory (State.mk x0 y0 z0) dtv ks.sum).map State.y).drop
        (ks.sum + 1 - max_points) ∧
    (((LorenzSimulator.create u v w 10 28 (8/3) dtv).reset x0 y0 z0).advanceAll ks).z =
      ((generate_trajectory (State.mk x0 y0 z0) dtv ks.sum).map State.z).drop
        (ks.sum + 1 - max_points) ∧
    ((((LorenzSimulator.create u v w 10 28 (8/3) dtv).reset x0 y0 z0).advanceAll
        ks).x.getLastD 0 = State.x (rk4N (State.mk x0 y0 z0) dtv ks.sum)) ∧
    ((((LorenzSimulator.create u v w 10 28 (8/3) dtv).reset x0 y0 z0).advanceAll
        ks).y.getLastD 0 = State.y (rk4N (State.mk x0 y0 z0) dtv ks.sum)) ∧
    ((((LorenzSimulator.create u v w 10 28 (8/3) dtv).reset x0 y0 z0).advanceAll
        ks).z.getLastD 0 = State.z (rk4N (State.mk x0 y0 z0) dtv ks.sum)) := by
  have h0 := reset_hist (LorenzSimulator.create u v w 10 28 (8/3) dtv) rfl rfl rfl x0 y0 z0
  have h1 := advanceAll_hist ks _ _ 0 h0
  obtain ⟨_, _, _, hx, hy, hz⟩ := h1
  have hdt : (((LorenzSimulator.create u v w 10 28 (8/3) dtv).reset x0 y0 z0).advanceAll
      ks).dt = dtv := by
    rw [(advanceAll_params ks _).2.2.2]
    rfl
  rw [hdt, Nat.zero_add] at hx hy hz
  refine ⟨?_, hx, hy, hz, ?_, ?_, ?_⟩
  · rw [hx, List.length_drop, List.length_map, generate_trajectory_length]
    omega
  · rw [hx, hist_getLastD]
  · rw [hy, hist_getLastD]
  · rw [hz, hist_getLastD]

/-- C5 witness at a concrete configuration exceeding the bound. -/
theorem C5_bounded_history_witness :
    ((((LorenzSimulator.create 0 0 0 10 28 (8/3) (1/100)).reset (1/10) 0 0).advanceAll
        [10001]).x.length = max_points) ∧
    (((LorenzSimulator.create 0 0 0 10 28 (8/3) (1/100)).reset (1/10) 0 0).advanceAll
        [10001]).x =
      ((generate_trajectory (State.mk (1/10) 0 0) (1/100) (List.sum [10001])).map
        State.x).drop (List.sum [10001] + 1 - max_points) ∧
    (((LorenzSimulator.create 0 0 0 10 28 (8/3) (1/100)).reset (1/10) 0 0).advanceAll
        [10001]).y =
      ((generate_trajectory (State.mk (1/10) 0 0) (1/100) (List.sum [10001])).map
        State.y).drop (List.sum [10001] + 1 - max_points) ∧
    (((LorenzSimulator.create 0 0 0 10 28 (8/3) (1/100)).reset (1/10) 0 0).advanceAll
        [10001]).z =
      ((generate_trajectory (State.mk (1/10) 0 0) (1/100) (List.sum [10001])).map
        State.z).drop (List.sum [10001] + 1 - max_points) ∧
    ((((LorenzSimulator.create 0 0 0 10 28 (8/3) (1/100)).reset (1/10) 0 0).advanceAll
        [10001]).x.getLastD 0 =
      State.x (rk4N (State.mk (1/10) 0 0) (1/100) (List.sum [10001]))) ∧
    ((((LorenzSimulator.create 0 0 0 10 28 (8/3) (1/100)).reset (1/10) 0 0).advanceAll
        [10001]).y.getLastD 0 =
      State.y (rk4N (State.mk (1/10) 0 0) (1/100) (List.sum [10001]))) ∧
    ((((LorenzSimulator.create 0 0 0 10 28 (8/3) (1/100)).reset (1/10) 0 0).advanceAll
        [10001]).z.getLastD 0 =
      State.z (rk4N (State.mk (1/10) 0 0) (1/100) (List.sum [10001]))) :=
  C5_bounded_history 0 0 0 (1/10) 0 0 (1/100) [10001] (by decide)

/-- C10: every simulator reachable through the public operations keeps its
four history lists at equal lengths and at least one entry long; hence the
empty-history guard at the start of perturb is never taken and perturb
always resets to the last retained state plus the offsets. -/
theorem C10_history_lists_invariant (sim : LorenzSimulator) (h : Reachable sim) :
    (sim.x.length = sim.y.length ∧ sim.y.length = sim.z.length ∧
     sim.z.length = sim.t.length ∧ 1 ≤ sim.x.length) ∧
    ∀ dx dy dz : ℚ, sim.perturb dx dy dz =
      sim.reset (sim.x.getLastD 0 + dx) (sim.y.getLastD 0 + dy)
        (sim.z.getLastD 0 + dz) := by
  have hM : 0 < max_points := by norm_num [max_points]
  have key : ∀ s : LorenzSimulator, Reachable s →
      s.x.length = s.y.length ∧ s.y.length = s.z.length ∧
      s.z.length = s.t.length ∧ 1 ≤ s.x.length := by
    intro s hs
    induction hs with
    | created x0 y0 z0 sigma rho beta dt =>
      simp [LorenzSimulator.create, LorenzSimulator.reset]
    | did_reset sim x0 y0 z0 hr ih =>
      simp [LorenzSimulator.reset]
    | did_perturb sim dx dy dz hr ih =>
      by_cases hx : sim.x = []
      · simpa [LorenzSimulator.perturb, hx] using ih
      · simp [LorenzSimulator.perturb, hx, LorenzSimulator.reset]
    | did_step sim k hr ih =>
      obtain ⟨h1, h2, h3, h4⟩ := ih
      obtain ⟨l1, l2, l3, l4⟩ := stepLoop_lengths k sim (sim.x.getLastD 0)
        (sim.y.getLastD 0) (sim.z.getLastD 0) (sim.t.getLastD 0)
      simp only [LorenzSimulator.step]
      split
      · rename_i hbig
        rw [l1] at hbig
        dsimp only
        refine ⟨?_, ?_, ?_, ?_⟩ <;>
          (simp only [List.length_drop, l1, l2, l3, l4]; omega)
      · rename_i hbig
        rw [l1] at hbig
        refine ⟨?_, ?_, ?_, ?_⟩ <;> (simp only [l1, l2, l3, l4]; omega)
  refine ⟨key sim h, ?_⟩
  intro dx dy dz
  have hne : sim.x ≠ [] := by
    have hlen := (key sim h).2.2.2
    intro hemp
    rw [hemp] at hlen
    simp at hlen
  simp [LorenzSimulator.perturb, hne]

/-- C10 witness: the invariant instantiated at a freshly created handle. -/
theorem C10_history_lists_invariant_witness :
    ((LorenzSimulator.create (1/10) 0 0 10 28 (8/3) (1/100)).x.length =
      (LorenzSimulator.create (1/10) 0 0 10 28 (8/3) (1/100)).y.length ∧
     (LorenzSimulator.create (1/10) 0 0 10 28 (8/3) (1/100)).y.length =
      (LorenzSimulator.create (1/10) 0 0 10 28 (8/3) (1/100)).z.length ∧
     (LorenzSimulator.create (1/10) 0 0 10 28 (8/3) (1/100)).z.length =
      (LorenzSimulator.create (1/10) 0 0 10 28 (8/3) (1/100)).t.length ∧
     1 ≤ (LorenzSimulator.create (1/10) 0 0 10 28 (8/3) (1/100)).x.length) ∧
    ∀ dx dy dz : ℚ, (LorenzSimulator.create (1/10) 0 0 10 28 (8/3) (1/100)).perturb
        dx dy dz =
      (LorenzSimulator.create (1/10) 0 0 10 28 (8/3) (1/100)).reset
        ((LorenzSimulator.create (1/10) 0 0 10 28 (8/3) (1/100)).x.getLastD 0 + dx)
        ((LorenzSimulator.create (1/10) 0 0 10 28 (8/3) (1/100)).y.getLastD 0 + dy)
        ((LorenzSimulator.create (1/10) 0 0 10 28 (8/3) (1/100)).z.getLastD 0 + dz) :=
  C10_history_lists_invariant (LorenzSimulator.create (1/10) 0 0 10 28 (8/3) (1/100))
    (Reachable.created (1/10) 0 0 10 28 (8/3) (1/100))

/-- C2: one integration step of the engine (both the vector rk4_step of the
manim scene and the componentwise loop body of the dashboard simulator)
equals s + dt/6 (k1 + 2 k2 + 2 k3 + k4) with k1 = f(s),
k2 = f(s + dt/2 k1), k3 = f(s + dt/2 k2), k4 = f(s + dt k3), where
f(s) = (sigma (y - x), x (rho - z) - y, x y - beta z). -/
theorem C2_rk4_step_matches_spec_formula :
    (∀ (s : State) (dt : ℚ), rk4_step s dt = rk4_spec ⟨SIGMA, RHO, BETA⟩ s dt) ∧
    (∀ (sim : LorenzSimulator) (cx cy cz : ℚ),
      sim.rk4Sub cx cy cz =
        ((rk4_spec ⟨sim.sigma, sim.rho, sim.beta⟩ ⟨cx, cy, cz⟩ sim.dt).x,
         (rk4_spec ⟨sim.sigma, sim.rho, sim.beta⟩ ⟨cx, cy, cz⟩ sim.dt).y,
         (rk4_spec ⟨sim.sigma, sim.rho, sim.beta⟩ ⟨cx, cy, cz⟩ sim.dt).z)) := by
  constructor
  · intro s dt
    simp only [rk4_step, rk4_spec, f_spec, lorenz_derivatives, SIGMA, RHO, BETA,
      State.add_def, State.hmul_def]
    ext <;> ring
  · intro sim cx cy cz
    simp only [LorenzSimulator.rk4Sub, LorenzSimulator.derivatives, rk4_spec, f_spec,
      State.add_def, State.hmul_def]
    refine Prod.ext ?_ (Prod.ext ?_ ?_) <;> (dsimp only; ring)

/-- C7: batch generation is deterministic; identical arguments give
identical output sequences, for the manim-scene generator and for the
export-video generator alike. -/
theorem C7_generate_deterministic (s1 s2 : State) (dt1 dt2 : ℚ) (n1 n2 : ℕ)
    (m1 m2 : ℤ) (hs : s1 = s2) (hdt : dt1 = dt2) (hn : n1 = n2) (hm : m1 = m2) :
    generate_trajectory s1 dt1 n1 = generate_trajectory s2 dt2 n2 ∧
    export_generate dt1 m1 = export_generate dt2 m2 := by
  subst hs; subst hdt; subst hn; subst hm
  exact ⟨rfl, rfl⟩

/-- C7 witness at concrete arguments. -/
theorem C7_generate_deterministic_witness :
    generate_trajectory (State.mk 0.1 0 0) (1/100) 5 =
      generate_trajectory (State.mk 0.1 0 0) (1/100) 5 ∧
    export_generate (1/100) 7 = export_generate (1/100) 7 :=
  C7_generate_deterministic (State.mk 0.1 0 0) (State.mk 0.1 0 0) (1/100) (1/100)
    5 5 7 7 rfl rfl rfl rfl

/-- C8: with the standard parameters the derivative vanishes at the origin
and a single RK4 step from (0, 0, 0) returns exactly (0, 0, 0), for every
step size dt. -/
theorem C8_rk4_fixes_equilibrium (dt : ℚ) :
    lorenz_derivatives (State.mk 0 0 0) = State.mk 0 0 0 ∧
    rk4_step (State.mk 0 0 0) dt = State.mk 0 0 0 := by
  constructor
  · simp only [lorenz_derivatives, SIGMA, RHO, BETA]
    ext <;> (dsimp only; ring)
  · simp only [rk4_step, lorenz_derivatives, SIGMA, RHO, BETA,
      State.add_def, State.hmul_def]
    ext <;> (dsimp only; ring)

/-- C9: the turbulence script advances every consecutive pair of states by
one explicit Euler step state[i+1] = state[i] + dt * f(state[i]), and that
rule differs from the RK4 rule of the other implementations. -/
theorem C9_turbulence_uses_euler (dt : ℚ) (n i : ℕ)
    (h : i + 1 < (simulate_lorenz dt n).length) :
    (simulate_lorenz dt n).getD (i+1) (State.mk 0 0 0) =
      eulerStep ((simulate_lorenz dt n).getD i (State.mk 0 0 0)) dt ∧
    eulerStep (State.mk 0 1 1.05) (1/100) ≠ rk4_step (State.mk 0 1 1.05) (1/100) := by
  constructor
  · exact eulerAux_getD dt n (State.mk 0.0 1.0 1.05) i h
  · simp only [rk4_step, eulerStep, lorenz_derivatives, lorenz_system, SIGMA, RHO, BETA,
      State.add_def, State.hmul_def, ne_eq, State.mk.injEq]
    norm_num

theorem rk4_step_dt_zero (s : State) : rk4_step s 0 = s := by
  simp only [rk4_step, lorenz_derivatives, SIGMA, RHO, BETA,
    State.add_def, State.hmul_def]
  ext <;> (dsimp only; ring)

theorem genAux_dt_zero (s : State) : ∀ n : ℕ, genAux s 0 n = List.replicate n s
  | 0 => rfl
  | n+1 => by
    simp [genAux, rk4_step_dt_zero, genAux_dt_zero s n, List.replicate_succ]

/-- C6: after a perturb call on a simulator with non-empty history, with
per-axis offsets bounded by epsilon, the retained history has length one,
its sole state is within epsilon of the previous last state on each axis,
and the time list is reset to the single entry 0. -/
theorem C6_perturb_behavior (sim : LorenzSimulator) (eps dx dy dz : ℚ)
    (hne : sim.x ≠ []) (hdx : |dx| ≤ eps) (hdy : |dy| ≤ eps) (hdz : |dz| ≤ eps) :
    (sim.perturb dx dy dz).x.length = 1 ∧
    (sim.perturb dx dy dz).y.length = 1 ∧
    (sim.perturb dx dy dz).z.length = 1 ∧
    (sim.perturb dx dy dz).t = [0] ∧
    |(sim.perturb dx dy dz).x.getLastD 0 - sim.x.getLastD 0| ≤ eps ∧
    |(sim.perturb dx dy dz).y.getLastD 0 - sim.y.getLastD 0| ≤ eps ∧
    |(sim.perturb dx dy dz).z.getLastD 0 - sim.z.getLastD 0| ≤ eps := by
  simp only [LorenzSimulator.perturb, hne, if_neg, LorenzSimulator.reset]
  simp [add_sub_cancel_left, hdx, hdy, hdz]

/-- C6 witness at a concrete simulator and concrete offsets. -/
theorem C6_perturb_behavior_witness :
    ((LorenzSimulator.create (1/10) 0 0 10 28 (8/3) (1/100)).perturb (1/200) 0
        (-(1/200))).x.length = 1 ∧
    ((LorenzSimulator.create (1/10) 0 0 10 28 (8/3) (1/100)).perturb (1/200) 0
        (-(1/200))).y.length = 1 ∧
    ((LorenzSimulator.create (1/10) 0 0 10 28 (8/3) (1/100)).perturb (1/200) 0
        (-(1/200))).z.length = 1 ∧
    ((LorenzSimulator.create (1/10) 0 0 10 28 (8/3) (1/100)).perturb (1/200) 0
        (-(1/200))).t = [0] ∧
    |((LorenzSimulator.create (1/10) 0 0 10 28 (8/3) (1/100)).perturb (1/200) 0
        (-(1/200))).x.getLastD 0 -
      (LorenzSimulator.create (1/10) 0 0 10 28 (8/3) (1/100)).x.getLastD 0| ≤ 1/100 ∧
    |((LorenzSimulator.create (1/10) 0 0 10 28 (8/3) (1/100)).perturb (1/200) 0
        (-(1/200))).y.getLastD 0 -
      (LorenzSimulator.create (1/10) 0 0 10 28 (8/3) (1/100)).y.getLastD 0| ≤ 1/100 ∧
    |((LorenzSimulator.create (1/10) 0 0 10 28 (8/3) (1/100)).perturb (1/200) 0
        (-(1/200))).z.getLastD 0 -
      (LorenzSimulator.create (1/10) 0 0 10 28 (8/3) (1/100)).z.getLastD 0| ≤ 1/100 :=
  C6_perturb_behavior (LorenzSimulator.create (1/10) 0 0 10 28 (8/3) (1/100))
    (1/100) (1/200) 0 (-(1/200))
    (by simp [LorenzSimulator.create, LorenzSimulator.reset])
    (by rw [abs_le]; constructor <;> norm_num)
    (by rw [abs_le]; constructor <;> norm_num)
    (by rw [abs_le]; constructor <;> norm_num)

/-- C4 counterexample: with dt = 0 batch generation silently returns a
degenerate constant trajectory instead of raising an error, and with a
negative step count it silently returns only the initial state. -/
theorem C4_counterexample :
    generate_trajectory (State.mk 0.1 0 0) 0 2 =
      [State.mk 0.1 0 0, State.mk 0.1 0 0, State.mk 0.1 0 0] ∧
    generate_trajectoryZ (State.mk 0.1 0 0) (1/100) (-3) = [State.mk 0.1 0 0] := by
  constructor
  · simp [generate_trajectory, genAux_dt_zero, List.replicate]
  · norm_num [generate_trajectoryZ, generate_trajectory, genAux]

/-- C4 (amended): neither batch generation nor incremental advance
validates its configuration.  With dt = 0 batch generation silently
returns a constant trajectory of the requested length; a non-positive
step count silently yields only the initial state (manim scene), a crash
rather than an explicit rejection (export video, modelled as none), or no
change at all (dashboard advance). -/
theorem C4_amended_no_validation :
    (∀ (s0 : State) (n : ℕ), generate_trajectory s0 0 n = List.replicate (n+1) s0) ∧
    (∀ (s0 : State) (dt : ℚ) (k : ℤ), k ≤ 0 → generate_trajectoryZ s0 dt k = [s0]) ∧
    (∀ (dt : ℚ) (k : ℤ), k ≤ 0 → export_generate dt k = none) ∧
    (∀ (sim : LorenzSimulator) (k : ℤ), k ≤ 0 → sim.x.length ≤ max_points →
      sim.stepZ k = sim) := by
  refine ⟨?_, ?_, ?_, ?_⟩
  · intro s0 n
    simp [generate_trajectory, genAux_dt_zero, List.replicate_succ]
  · intro s0 dt k hk
    simp [generate_trajectoryZ, Int.toNat_of_nonpos hk, generate_trajectory, genAux]
  · intro dt k hk
    simp [export_generate, hk]
  · intro sim k hk hlen
    simp only [LorenzSimulator.stepZ, Int.toNat_of_nonpos hk, LorenzSimulator.step,
      LorenzSimulator.stepLoop]
    rw [if_neg (by omega)]

/-- C4 witness at concrete inputs for each amended conjunct. -/
theorem C4_amended_no_validation_witness :
    generate_trajectoryZ (State.mk 1 2 3) 1 (-1) = [State.mk 1 2 3] ∧
    export_generate 1 0 = none ∧
    (LorenzSimulator.create (1/10) 0 0 10 28 (8/3) (1/100)).stepZ (-2) =
      LorenzSimulator.create (1/10) 0 0 10 28 (8/3) (1/100) :=
  ⟨C4_amended_no_validation.2.1 (State.mk 1 2 3) 1 (-1) (by decide),
   C4_amended_no_validation.2.2.1 1 0 (by decide),
   C4_amended_no_validation.2.2.2 (LorenzSimulator.create (1/10) 0 0 10 28 (8/3) (1/100))
     (-2) (by decide)
     (by simp [LorenzSimulator.create, LorenzSimulator.reset, max_points])⟩

/-- C1 counterexample: the export-video batch generator called with step
count 3 returns a sequence of exactly 3 states, not 3 + 1. -/
theorem C1_counterexample :
    (export_generate (1/100) 3).map List.length = some 3 ∧ (3 : ℕ) ≠ 3 + 1 := by
  constructor
  · norm_num [export_generate, genAux_length]
    decide
  · decide

/-- C1 (amended): the manim-scene generator returns exactly steps + 1
states whose first element is the initial state; the export-video
generator takes no initial state argument and returns, for a positive
step count, exactly that many states whose first element is the fixed
initial condition (0.1, 0, 0). -/
theorem C1_amended_batch_lengths :
    (∀ (s0 : State) (dt : ℚ) (n : ℕ),
      (generate_trajectory s0 dt n).length = n + 1 ∧
      (generate_trajectory s0 dt n).head? = some s0) ∧
    (∀ (dt : ℚ) (k : ℤ), 1 ≤ k →
      ∃ l, export_generate dt k = some l ∧ (l.length : ℤ) = k ∧
        l.head? = some (State.mk 0.1 0 0)) := by
  constructor
  · intro s0 dt n
    exact ⟨generate_trajectory_length s0 dt n, rfl⟩
  · intro dt k hk
    refine ⟨State.mk 0.1 0 0 :: genAux (State.mk 0.1 0 0) dt (k.toNat - 1), ?_, ?_, rfl⟩
    · simp [export_generate]
      omega
    · simp [genAux_length]
      omega

/-- C1 witness at concrete inputs. -/
theorem C1_amended_batch_lengths_witness :
    ∃ l, export_generate 1 3 = some l ∧ (l.length : ℤ) = 3 ∧
      l.head? = some (State.mk 0.1 0 0) :=
  C1_amended_batch_lengths.2 1 3 (by decide)

/-- C9 witness at concrete arguments. -/
theorem C9_turbulence_uses_euler_witness :
    (simulate_lorenz (1/100) 1).getD 1 (State.mk 0 0 0) =
      eulerStep ((simulate_lorenz (1/100) 1).getD 0 (State.mk 0 0 0)) (1/100) ∧
    eulerStep (State.mk 0 1 1.05) (1/100) ≠ rk4_step (State.mk 0 1 1.05) (1/100) :=
  C9_turbulence_uses_euler (1/100) 1 0
    (by simp [simulate_lorenz, eulerAux_length])

end Lorenz
